import Mathlib

/-! Shallow embedding of the book-generation workflow of
`app/models/bookgeneration.py` and of the chapter-summary store of
`app/db.py`.

The workflow is a LangGraph state graph built in `BookGeneration.__init__`
(bookgeneration.py, lines 51-105): fifteen nodes, static edges, and four
conditional edges whose routing functions are the pure classifier methods of
the class.  The graph is compiled with an `InMemorySaver` checkpointer
(lines 104-105), i.e. checkpoints live in a dictionary held in process
memory.

The Python `State` TypedDict (lines 24-38) is modelled by `WState` below,
restricted to the fields that the routing functions and the chapter counter
read.  Optional string fields that are only ever subjected to a truthiness
test are modelled as `Option String`, with `none` standing for an absent key
or a Python `None` (the two behave identically under truthiness and under
`== "yes"`).  The field `final_review_notes_status` is modelled as
`Option (Option String)` because `decide_on_final_revision` reads it through
`state.get("final_review_notes_status", "")`: an absent key yields the
default `""`, while a key present with value `None` yields `None`, on which
the subsequent `.lower()` raises `AttributeError`. -/

/-- Python truthiness of an optional string: an absent value, `None` and the
empty string are falsy; every non-empty string is truthy. -/
def truthy : Option String → Bool
  | none => false
  | some s => s != ""

/-- Python `str.lower`, character by character. -/
def pyLower (s : String) : String := String.mk (s.data.map Char.toLower)

/-- Python `dict.get(key, default)` on a field modelled as
`Option (Option String)`: `none` means the key is absent (the default
applies); `some v` means the key is present with value `v`, which may itself
be Python `None` (`v = none`). -/
def pyDictGet (field : Option (Option String)) (dflt : String) : Option String :=
  match field with
  | none => some dflt
  | some v => v

/-- The fields of the workflow `State` (bookgeneration.py, lines 24-38) that
are read by the four routing functions and by the chapter counter logic. -/
structure WState where
  title : Option String
  notesBeforeOutline : Option String
  notesOnOutlineAfter : Option String
  chapterFeedback : Option String
  userDecision : Option String
  finalStatus : Option (Option String)
  finalNotes : Option String
  current : Nat
deriving DecidableEq

/-- External inputs consumed by one node execution: the cells read from the
Excel sheet and the text typed at the `input()` prompt. -/
structure NodeInput where
  excelTitle : Option String
  excelNotesBefore : Option String
  excelOutlineFeedback : Option String
  excelChapterNotes : Option String
  excelFinalStatus : Option String
  excelFinalNotes : Option String
  userText : String
deriving DecidableEq

/-- `BookGeneration.decide_to_generate_outline` (line 196-197):
`"continue" if state.get("title") and state.get("notes_before_outline") else "stop"`. -/
def decide_to_generate_outline (s : WState) : String :=
  if truthy s.title = true ∧ truthy s.notesBeforeOutline = true then "continue" else "stop"

/-- `BookGeneration.decide_to_regenerate_chapter` (lines 280-281):
`"continue" if state.get("chapter_feedback") else "skip"`. -/
def decide_to_regenerate_chapter (s : WState) : String :=
  if truthy s.chapterFeedback = true then "continue" else "skip"

/-- `BookGeneration.should_generate_next_chapter` (lines 358-359):
`"continue" if state.get("user_decision") == "yes" else "stop"`. -/
def should_generate_next_chapter (s : WState) : String :=
  if s.userDecision = some "yes" then "continue" else "stop"

/-- `BookGeneration.decide_on_final_revision` (lines 384-387):
`status = state.get("final_review_notes_status", "").lower()` followed by
`"revise" if status == "pending" and notes else "finish"`.  When the key is
present with value `None`, `.lower()` raises `AttributeError`, modelled as
`Except.error`. -/
def decide_on_final_revision (s : WState) : Except String String :=
  match pyDictGet s.finalStatus "" with
  | none => Except.error "AttributeError: NoneType has no attribute lower"
  | some st =>
      Except.ok (if pyLower st = "pending" ∧ truthy s.finalNotes = true then "revise" else "finish")

/-- Label table of `add_conditional_edges("read_local_excel", ...)` (lines 72-75). -/
def outlineMap (lbl : String) : Option String :=
  if lbl = "continue" then some "generate_outline"
  else if lbl = "stop" then some "finish"
  else none

/-- Label table of `add_conditional_edges("read_chapter_feedback", ...)` (lines 83-86). -/
def chapterFbMap (lbl : String) : Option String :=
  if lbl = "continue" then some "regenerate_chapter"
  else if lbl = "skip" then some "generate_chapter_summary_and_update_db"
  else none

/-- Label table of `add_conditional_edges("ask_for_next_chapter", ...)` (lines 91-94). -/
def nextChapterMap (lbl : String) : Option String :=
  if lbl = "continue" then some "generate_chapter"
  else if lbl = "stop" then some "ask_for_final_review"
  else none

/-- Label table of `add_conditional_edges("read_final_review_notes", ...)` (lines 96-99). -/
def finalMap (lbl : String) : Option String :=
  if lbl = "revise" then some "perform_final_revision"
  else if lbl = "finish" then some "finish"
  else none

/-- Follow a conditional edge: propagate a classifier error, look the label up
in the edge's label table, and fail with `UnmappedRoutingLabel` if absent. -/
def routeVia (m : String → Option String) : Except String String → Except String (Option String)
  | Except.error e => Except.error e
  | Except.ok lbl =>
      match m lbl with
      | some t => Except.ok (some t)
      | none => Except.error "UnmappedRoutingLabel"

/-- The static edges added with `add_edge` in `BookGeneration.__init__`
(lines 76-100). -/
def staticTarget (node : String) : Option String :=
  if node = "generate_outline" then some "write_outline_to_excel"
  else if node = "write_outline_to_excel" then some "human_feedback_interrupt"
  else if node = "human_feedback_interrupt" then some "read_feedback_from_excel"
  else if node = "read_feedback_from_excel" then some "generate_chapter"
  else if node = "generate_chapter" then some "human_feedback_on_chapter"
  else if node = "human_feedback_on_chapter" then some "read_chapter_feedback"
  else if node = "regenerate_chapter" then some "generate_chapter_summary_and_update_db"
  else if node = "generate_chapter_summary_and_update_db" then some "ask_for_next_chapter"
  else if node = "ask_for_final_review" then some "read_final_review_notes"
  else if node = "perform_final_revision" then some "finish"
  else none

/-- Successor of a node on the post-delta state: the four conditional edges
route through their classifier and label table, `finish` leads to `END`
(`Except.ok none`), every other node follows its static edge. -/
def nextNode (node : String) (s : WState) : Except String (Option String) :=
  if node = "read_local_excel" then routeVia outlineMap (Except.ok (decide_to_generate_outline s))
  else if node = "read_chapter_feedback" then routeVia chapterFbMap (Except.ok (decide_to_regenerate_chapter s))
  else if node = "ask_for_next_chapter" then routeVia nextChapterMap (Except.ok (should_generate_next_chapter s))
  else if node = "read_final_review_notes" then routeVia finalMap (decide_on_final_revision s)
  else if node = "finish" then Except.ok none
  else
    match staticTarget node with
    | some t => Except.ok (some t)
    | none => Except.error "unknown node"

/-- Delta of `read_local_excel` (lines 183-194) on the modelled fields: title
and notes from the sheet, `current_chapter_number` initialised to 1. -/
def read_local_excel_delta (i : NodeInput) (s : WState) : WState :=
  { s with title := i.excelTitle, notesBeforeOutline := i.excelNotesBefore, current := 1 }

/-- Delta of `read_feedback_from_excel` (lines 229-234): stores the
`notes_on_outline_after` cell. -/
def read_feedback_from_excel_delta (i : NodeInput) (s : WState) : WState :=
  { s with notesOnOutlineAfter := i.excelOutlineFeedback }

/-- Delta of `read_chapter_feedback` (lines 273-278): stores the
`chapter_notes` cell. -/
def read_chapter_feedback_delta (i : NodeInput) (s : WState) : WState :=
  { s with chapterFeedback := i.excelChapterNotes }

/-- Delta of `regenerate_chapter` (line 308) on the modelled fields:
`chapter_feedback` is reset to `None`. -/
def regenerate_chapter_state_delta (s : WState) : WState :=
  { s with chapterFeedback := none }

/-- Delta of `ask_for_next_chapter` (lines 352-356): stores the lower-cased
typed decision and unconditionally sets `current_chapter_number` to its
successor, whatever the decision was. -/
def ask_for_next_chapter_delta (i : NodeInput) (s : WState) : WState :=
  { s with userDecision := some (pyLower i.userText), current := s.current + 1 }

/-- Delta of `read_final_review_notes` (lines 372-382): stores the status and
notes cells; the status key becomes present even when the cell is absent
(value `None`). -/
def read_final_review_notes_delta (i : NodeInput) (s : WState) : WState :=
  { s with finalStatus := some i.excelFinalStatus, finalNotes := i.excelFinalNotes }

/-- Effect of executing a node on the modelled state fields.  Nodes whose
returned delta does not touch any modelled field act as the identity
(`generate_outline`, `write_outline_to_excel`, `human_feedback_interrupt`,
`generate_chapter`, `human_feedback_on_chapter`,
`generate_chapter_summary_and_update_db`, `ask_for_final_review`,
`perform_final_revision`, `finish`). -/
def applyNode (node : String) (i : NodeInput) (s : WState) : WState :=
  if node = "read_local_excel" then read_local_excel_delta i s
  else if node = "read_feedback_from_excel" then read_feedback_from_excel_delta i s
  else if node = "read_chapter_feedback" then read_chapter_feedback_delta i s
  else if node = "regenerate_chapter" then regenerate_chapter_state_delta s
  else if node = "ask_for_next_chapter" then ask_for_next_chapter_delta i s
  else if node = "read_final_review_notes" then read_final_review_notes_delta i s
  else s

/-- A graph configuration: the node about to execute plus the current state.
This is also the payload of a checkpoint (state snapshot plus node cursor). -/
structure Cfg where
  node : String
  st : WState
deriving DecidableEq

/-- One engine transition: execute the current node (merging its delta), then
resolve the next node on the post-delta state.  `Except.ok none` means the
run reached `END`. -/
def stepCfg (c : Cfg) (i : NodeInput) : Except String (Option Cfg) :=
  match nextNode c.node (applyNode c.node i c.st) with
  | Except.error e => Except.error e
  | Except.ok none => Except.ok none
  | Except.ok (some n) => Except.ok (some ⟨n, applyNode c.node i c.st⟩)

/-- The initial workflow state: every optional field unset,
`current_chapter_number` not yet initialised (modelled as 0). -/
def initState : WState :=
  ⟨none, none, none, none, none, none, none, 0⟩

/-- The entry configuration: the edge from `START` leads to
`read_local_excel` (line 71). -/
def initCfg : Cfg := ⟨"read_local_excel", initState⟩

/-- Configurations reachable from the entry configuration by engine
transitions under some sequence of external inputs. -/
inductive Reachable : Cfg → Prop
  | init : Reachable initCfg
  | step {c : Cfg} {i : NodeInput} {c' : Cfg} :
      Reachable c → stepCfg c i = Except.ok (some c') → Reachable c'

/-- The single file write performed by `perform_final_revision`
(lines 403-404): the full revised manuscript goes to
`"{sanitized_title}_FINAL.txt"` in overwrite mode. -/
def perform_final_revision_writes (sanitizedTitle finalContent : String) :
    List (String × String) :=
  [(sanitizedTitle ++ "_FINAL.txt", finalContent)]

/-- File writes of the final-review stage: route `read_final_review_notes`
through `decide_on_final_revision`; on `revise` the run visits
`perform_final_revision` (one full write), on `finish` it visits `finish`
(no write). -/
def finalStageWrites (s : WState) (sanitizedTitle finalContent : String) :
    Except String (List (String × String)) :=
  match decide_on_final_revision s with
  | Except.error e => Except.error e
  | Except.ok lbl =>
      Except.ok (if lbl = "revise" then perform_final_revision_writes sanitizedTitle finalContent else [])

/-- The `InMemorySaver` checkpoint store (line 104): a map from run id
(thread id) to the latest checkpoint, held in process memory.  Saving
prepends, so lookup returns the most recent checkpoint of a run. -/
def storeSave (store : List (String × Cfg)) (runId : String) (c : Cfg) :
    List (String × Cfg) :=
  (runId, c) :: store

/-- Lookup of the latest checkpoint of a run in the in-memory store. -/
def storeLookup : List (String × Cfg) → String → Option Cfg
  | [], _ => none
  | (k, v) :: t, r => if k = r then some v else storeLookup t r

/-- A process restart: everything held in process memory is lost, so the
`InMemorySaver` store of the new process is empty. -/
def processRestart (_ : List (String × Cfg)) : List (String × Cfg) := []

/-- The chapter-summary upsert of `generate_chapter_summary_and_update_db`
(lines 329-338): scan `chapter_summaries`, replace the first entry whose
`"chapter"` key equals the current chapter number, otherwise append the new
entry.  An entry is modelled as a pair of chapter number and summary text. -/
def upsertChapterSummary : List (Nat × String) → Nat → String → List (Nat × String)
  | [], n, s => [(n, s)]
  | e :: t, n, s => if e.1 = n then (n, s) :: t else e :: upsertChapterSummary t n s

/-- The chapter numbers present in a summary list. -/
def summaryKeys (l : List (Nat × String)) : List Nat := l.map Prod.fst

/-- The summary list obtained from a run: it starts empty (`read_local_excel`,
line 192) and is only ever modified by `upsertChapterSummary`. -/
def applyUpserts (ops : List (Nat × String)) : List (Nat × String) :=
  ops.foldl (fun acc p => upsertChapterSummary acc p.1 p.2) []

/-- Result of `MongoDB.update_book_chapters`: either the guard skipped the
write, or a write was performed. -/
inductive DbResult
  | skipped
  | wrote
deriving DecidableEq

/-- MongoDB `update_one(..., upsert=True)` keyed by `book_title`: replace the
chapters of the first document with this title, else insert a new document. -/
def upsertDoc :
    List (String × List (Nat × String)) → String → List (Nat × String) →
      List (String × List (Nat × String))
  | [], t, d => [(t, d)]
  | e :: rest, t, d => if e.1 = t then (t, d) :: rest else e :: upsertDoc rest t d

/-- `MongoDB.update_book_chapters` (db.py, lines 17-45): if the title or the
chapter list is falsy, log a warning and return without touching the store;
otherwise perform the upsert, re-raising any database failure (`dbOk = false`
models a failing database). -/
def update_book_chapters (dbOk : Bool) (store : List (String × List (Nat × String)))
    (bookTitle : String) (chaptersData : List (Nat × String)) :
    Except String (List (String × List (Nat × String)) × DbResult) :=
  if bookTitle = "" ∨ chaptersData = [] then Except.ok (store, DbResult.skipped)
  else if dbOk then Except.ok (upsertDoc store bookTitle chaptersData, DbResult.wrote)
  else Except.error "Failed to update book chapters in MongoDB"

/-! ### Manuscript model for chapter regeneration

`generate_chapter` appends `"\n\n---\n\nChapter {n}\n\n---\n\n" + content` to
the book file (bookgeneration.py, lines 251-253); `regenerate_chapter`
(lines 283-308) replaces the last in-memory chapter
(`chapters[:-1] + [revised_content]`, line 295) and rewrites the whole book
file as the stripped concatenation of
`"\n\n---\n\nChapter {i+1}\n\n---\n\n{content}"` over all chapters
(lines 297-302).  Manuscript text is modelled as `List Char`. -/

/-- Prefix test on character lists: does the pattern start the text? -/
def leadsWith : List Char → List Char → Bool
  | [], _ => true
  | _ :: _, [] => false
  | a :: as, b :: bs => a == b && leadsWith as bs

/-- Number of positions of the text at which the pattern occurs. -/
def occCount (pat : List Char) : List Char → Nat
  | [] => 0
  | c :: t => (if leadsWith pat (c :: t) = true then 1 else 0) + occCount pat t

/-- A decimal digit character, as produced by Python string formatting. -/
def digitChar (d : Nat) : Char :=
  if d = 0 then '0' else if d = 1 then '1' else if d = 2 then '2'
  else if d = 3 then '3' else if d = 4 then '4' else if d = 5 then '5'
  else if d = 6 then '6' else if d = 7 then '7' else if d = 8 then '8' else '9'

/-- Numeric value of a decimal digit character. -/
def digitVal (c : Char) : Nat :=
  if c = '0' then 0 else if c = '1' then 1 else if c = '2' then 2
  else if c = '3' then 3 else if c = '4' then 4 else if c = '5' then 5
  else if c = '6' then 6 else if c = '7' then 7 else if c = '8' then 8 else 9

/-- Fuel-bounded decimal rendering, most significant digit first; the fuel is
always chosen larger than the number, which makes it irrelevant. -/
def natDigitsAux : Nat → Nat → List Char
  | 0, _ => []
  | f + 1, n => if n < 10 then [digitChar n] else natDigitsAux f (n / 10) ++ [digitChar (n % 10)]

/-- Decimal rendering of a natural number, most significant digit first:
Python `str(n)` as used by the f-string chapter headers. -/
def natDigits (n : Nat) : List Char := natDigitsAux (n + 1) n

/-- Horner-style evaluation of a digit string, used to invert `natDigits`. -/
def digitsToNat (acc : Nat) : List Char → Nat
  | [] => acc
  | c :: t => digitsToNat (10 * acc + digitVal c) t

/-- The literal word of the chapter boundary marker. -/
def chapterTag : List Char := ['C', 'h', 'a', 'p', 't', 'e', 'r', ' ']

/-- The dash run of the chapter boundary marker. -/
def dashRun : List Char := ['-', '-', '-']

/-- Chapter `n`'s boundary marker: the text `---\n\nChapter n\n\n---` that
delimits chapter `n` in the book file. -/
def chapterMarker (n : Nat) : List Char :=
  dashRun ++ '\n' :: '\n' :: (chapterTag ++ (natDigits n ++ ('\n' :: '\n' :: dashRun)))

/-- The chapter header written before each chapter's content:
`"\n\n---\n\nChapter {n}\n\n---\n\n"` (lines 252 and 298). -/
def chapterHeader (n : Nat) : List Char :=
  '\n' :: '\n' :: (chapterMarker n ++ ['\n', '\n'])

/-- The book text rendered from chapter number `k` onward: the concatenation
of header plus content per chapter, as `generate_chapter` accumulates it by
appending and as `regenerate_chapter` rebuilds it (lines 297-299, before the
strip). -/
def renderBook : Nat → List (List Char) → List Char
  | _, [] => []
  | k, c :: rest => chapterHeader k ++ (c ++ renderBook (k + 1) rest)

/-- The whitespace characters removed by Python `str.strip`. -/
def pySpace (c : Char) : Bool :=
  c == ' ' || c == '\t' || c == '\n' || c == '\r' || c == '\x0B' || c == '\x0C'

/-- Python `str.lstrip()`. -/
def pyLStrip (l : List Char) : List Char := l.dropWhile pySpace

/-- Python `str.rstrip()`. -/
def pyRStrip (l : List Char) : List Char := (l.reverse.dropWhile pySpace).reverse

/-- Python `str.strip()`. -/
def pyStrip (l : List Char) : List Char := pyRStrip (pyLStrip l)

/-- The in-memory chapter replacement of `regenerate_chapter` (line 295):
`chapters[:-1] + [revised_content]`. -/
def regenerateChapters (chapters : List (List Char)) (revised : List Char) : List (List Char) :=
  chapters.dropLast ++ [revised]

/-- The book file written by `regenerate_chapter` (lines 297-302): all chapter
blocks joined and stripped, written in overwrite mode. -/
def regeneratedFile (chapters : List (List Char)) : List Char :=
  pyStrip (renderBook 1 chapters)

/-- Marker-free chapter content: it contains neither a dash nor a capital C,
so no part of it can imitate a chapter boundary marker. -/
def cleanContent (c : List Char) : Prop := ∀ ch ∈ c, ch ≠ '-' ∧ ch ≠ 'C'

instance (c : List Char) : Decidable (cleanContent c) := by
  unfold cleanContent
  infer_instance

/-! ## Helper lemmas -/

theorem outlineMap_ne_entry (lbl t : String) (h : outlineMap lbl = some t) :
    t ≠ "read_local_excel" := by
  unfold outlineMap at h
  split_ifs at h <;> simp only [Option.some.injEq] at h <;> subst h <;> decide

theorem chapterFbMap_ne_entry (lbl t : String) (h : chapterFbMap lbl = some t) :
    t ≠ "read_local_excel" := by
  unfold chapterFbMap at h
  split_ifs at h <;> simp only [Option.some.injEq] at h <;> subst h <;> decide

theorem nextChapterMap_ne_entry (lbl t : String) (h : nextChapterMap lbl = some t) :
    t ≠ "read_local_excel" := by
  unfold nextChapterMap at h
  split_ifs at h <;> simp only [Option.some.injEq] at h <;> subst h <;> decide

theorem finalMap_ne_entry (lbl t : String) (h : finalMap lbl = some t) :
    t ≠ "read_local_excel" := by
  unfold finalMap at h
  split_ifs at h <;> simp only [Option.some.injEq] at h <;> subst h <;> decide

theorem staticTarget_ne_entry (node t : String) (h : staticTarget node = some t) :
    t ≠ "read_local_excel" := by
  unfold staticTarget at h
  split_ifs at h <;> simp only [Option.some.injEq] at h <;> subst h <;> decide

theorem routeVia_target (m : String → Option String) (e : Except String String) (t : String)
    (h : routeVia m e = Except.ok (some t)) : ∃ lbl, m lbl = some t := by
  cases e with
  | error msg => simp [routeVia] at h
  | ok lbl =>
      refine ⟨lbl, ?_⟩
      cases hm : m lbl with
      | none => simp [routeVia, hm] at h
      | some u => simp [routeVia, hm] at h; rw [h]

theorem nextNode_not_entry {node : String} {s : WState} {t : String}
    (h : nextNode node s = Except.ok (some t)) : t ≠ "read_local_excel" := by
  unfold nextNode at h
  split_ifs at h
  · obtain ⟨lbl, hm⟩ := routeVia_target _ _ _ h
    exact outlineMap_ne_entry lbl t hm
  · obtain ⟨lbl, hm⟩ := routeVia_target _ _ _ h
    exact chapterFbMap_ne_entry lbl t hm
  · obtain ⟨lbl, hm⟩ := routeVia_target _ _ _ h
    exact nextChapterMap_ne_entry lbl t hm
  · obtain ⟨lbl, hm⟩ := routeVia_target _ _ _ h
    exact finalMap_ne_entry lbl t hm
  · simp at h
  · cases hst : staticTarget node with
    | none => rw [hst] at h; simp at h
    | some u =>
        rw [hst] at h
        simp only [Except.ok.injEq, Option.some.injEq] at h
        subst h
        exact staticTarget_ne_entry node _ hst

theorem stepCfg_ok_elim {c : Cfg} {i : NodeInput} {c' : Cfg}
    (h : stepCfg c i = Except.ok (some c')) :
    nextNode c.node (applyNode c.node i c.st) = Except.ok (some c'.node) ∧
      c'.st = applyNode c.node i c.st := by
  unfold stepCfg at h
  cases hnn : nextNode c.node (applyNode c.node i c.st) with
  | error msg => rw [hnn] at h; simp at h
  | ok o =>
      cases o with
      | none => rw [hnn] at h; simp at h
      | some n =>
          rw [hnn] at h
          simp only [Except.ok.injEq, Option.some.injEq] at h
          subst h
          exact ⟨rfl, rfl⟩

theorem reachable_entry {c : Cfg} (hr : Reachable c) (hn : c.node = "read_local_excel") :
    c = initCfg := by
  induction hr with
  | init => rfl
  | step hprev hstep ih =>
      exfalso
      obtain ⟨hnn, _⟩ := stepCfg_ok_elim hstep
      exact nextNode_not_entry hnn hn

theorem applyNode_current_other (node : String) (i : NodeInput) (s : WState)
    (h1 : node ≠ "read_local_excel") (h2 : node ≠ "ask_for_next_chapter") :
    (applyNode node i s).current = s.current := by
  unfold applyNode
  rw [if_neg h1]
  split_ifs <;> rfl

/-! ## Claim C1 -/

/-- Claim C1 counterexample: the checkpointer is an `InMemorySaver`.  A run
that executes its first node (`read_local_excel` on a sheet holding title
`"T"` and notes `"N"`) and checkpoints the post-delta state can reload that
exact state while the process lives, but after a process restart the
in-memory store is empty and `resume("run-1")` finds no checkpoint at all —
the claimed state identical to the post-node state is not reproduced. -/
theorem checkpoint_restart_counterexample :
    stepCfg initCfg ⟨some "T", some "N", none, none, none, none, ""⟩
        = Except.ok (some ⟨"generate_outline", ⟨some "T", some "N", none, none, none, none, none, 1⟩⟩)
    ∧ storeLookup
        (storeSave [] "run-1" ⟨"generate_outline", ⟨some "T", some "N", none, none, none, none, none, 1⟩⟩)
        "run-1"
        = some ⟨"generate_outline", ⟨some "T", some "N", none, none, none, none, none, 1⟩⟩
    ∧ storeLookup
        (processRestart
          (storeSave [] "run-1" ⟨"generate_outline", ⟨some "T", some "N", none, none, none, none, none, 1⟩⟩))
        "run-1" = none := by
  refine ⟨rfl, ?_, rfl⟩
  simp [storeSave, storeLookup]

/-- Claim C1 (amended): checkpoints are held by an in-process `InMemorySaver`.
Within a single process, loading a run id right after saving a checkpoint
under it returns exactly the saved configuration (state plus node cursor), so
in-process resumption reproduces the post-node state; but a process restart
empties the store, so no checkpoint survives it and any lookup after a
restart returns nothing. -/
theorem inmemory_checkpoint_semantics :
    (∀ (store : List (String × Cfg)) (runId : String) (c : Cfg),
        storeLookup (storeSave store runId c) runId = some c)
    ∧ ∀ (store : List (String × Cfg)) (runId : String),
        storeLookup (processRestart store) runId = none := by
  constructor
  · intro store runId c
    simp [storeSave, storeLookup]
  · intro store runId
    rfl

/-! ## Claim C2 -/

/-- Claim C2 counterexample: the graph wires `read_feedback_from_excel` to
`generate_chapter` with a static edge.  On a state whose outline feedback is
the clearly non-affirmative string `"this needs major rework"`, the successor
is `generate_chapter` — chapter generation begins at once; no `revise` label
is produced and no outline-revising node is entered. -/
theorem outline_feedback_static_counterexample :
    nextNode "read_feedback_from_excel"
        ⟨some "T", some "N", some "this needs major rework", none, none, none, none, 1⟩
        = Except.ok (some "generate_chapter")
    ∧ staticTarget "read_feedback_from_excel" = some "generate_chapter" :=
  ⟨rfl, rfl⟩

/-- Claim C2 (amended): there is no outline-feedback router.  For every state
— whatever the outline-feedback string read from the sheet — the successor of
`read_feedback_from_excel` is the static edge to `generate_chapter`; the
feedback is merely stored in `notes_on_outline_after` and later injected into
the chapter prompt, and no approval gate or outline-revision loop exists. -/
theorem outline_feedback_unconditional_edge (s : WState) :
    nextNode "read_feedback_from_excel" s = Except.ok (some "generate_chapter") := rfl

/-! ## Claim C3 -/

/-- Claim C3 counterexample: `should_generate_next_chapter` compares the
stored lower-cased decision for exact equality with `"yes"`.  The inputs
`"nay"` and `"y"` — both of which the claim says contain an affirmative token
and must yield `continue` — are classified `stop`. -/
theorem next_chapter_classifier_counterexample :
    should_generate_next_chapter
        (ask_for_next_chapter_delta ⟨none, none, none, none, none, none, "nay"⟩ initState) = "stop"
    ∧ should_generate_next_chapter
        (ask_for_next_chapter_delta ⟨none, none, none, none, none, none, "y"⟩ initState) = "stop" :=
  ⟨rfl, rfl⟩

/-- Claim C3 (amended): the continue-next-chapter decision lower-cases the
typed input and routes `continue` exactly when the lower-cased input equals
the whole string `"yes"`; every other input — including `"y"` and `"nay"` —
routes `stop` towards the final review.  There is no substring matching. -/
theorem next_chapter_exact_match (i : NodeInput) (s : WState) :
    nextNode "ask_for_next_chapter" (ask_for_next_chapter_delta i s)
      = Except.ok (some (if pyLower i.userText = "yes" then "generate_chapter" else "ask_for_final_review")) := by
  have h0 : nextNode "ask_for_next_chapter" (ask_for_next_chapter_delta i s)
      = routeVia nextChapterMap
          (Except.ok (should_generate_next_chapter (ask_for_next_chapter_delta i s))) := rfl
  by_cases h : pyLower i.userText = "yes"
  · have hl : should_generate_next_chapter (ask_for_next_chapter_delta i s) = "continue" := by
      simp [should_generate_next_chapter, ask_for_next_chapter_delta, h]
    rw [h0, hl, if_pos h]
    rfl
  · have hl : should_generate_next_chapter (ask_for_next_chapter_delta i s) = "stop" := by
      simp [should_generate_next_chapter, ask_for_next_chapter_delta, h]
    rw [h0, hl, if_neg h]
    rfl

/-! ## Claim C4 -/

/-- Claim C4 counterexample: the chapter-feedback router has no affirmative
vocabulary.  The feedback `"ok"` — which the claim says yields `approve` and
skips regeneration — is truthy, so `decide_to_regenerate_chapter` returns
`"continue"` and the graph routes to `regenerate_chapter`. -/
theorem chapter_feedback_counterexample :
    decide_to_regenerate_chapter ⟨none, none, none, some "ok", none, none, none, 1⟩ = "continue"
    ∧ chapterFbMap "continue" = some "regenerate_chapter"
    ∧ nextNode "read_chapter_feedback" ⟨none, none, none, some "ok", none, none, none, 1⟩
        = Except.ok (some "regenerate_chapter") :=
  ⟨rfl, rfl, rfl⟩

/-- Claim C4 (amended): the chapter-feedback router tests only Python
truthiness.  Absent or empty feedback routes to the summarization node
(regeneration skipped); every non-empty feedback string — affirmative words
such as `"ok"`, `"good"`, `"continue"`, `"next"`, `"approve"` included —
routes to `regenerate_chapter`.  No trimming, lower-casing or vocabulary
lookup happens. -/
theorem chapter_feedback_truthiness_routing (s : WState) :
    nextNode "read_chapter_feedback" s
      = Except.ok (some (if truthy s.chapterFeedback = true then "regenerate_chapter"
          else "generate_chapter_summary_and_update_db")) := by
  have h0 : nextNode "read_chapter_feedback" s
      = routeVia chapterFbMap (Except.ok (decide_to_regenerate_chapter s)) := rfl
  by_cases h : truthy s.chapterFeedback = true
  · have hl : decide_to_regenerate_chapter s = "continue" := by
      simp [decide_to_regenerate_chapter, h]
    rw [h0, hl, if_pos h]
    rfl
  · have hl : decide_to_regenerate_chapter s = "skip" := by
      simp [decide_to_regenerate_chapter, h]
    rw [h0, hl, if_neg h]
    rfl

/-! ## Claim C5 -/

/-- Claim C5 counterexample: the final-revision router has no
`{"none","no","skip"}` vocabulary; it tests `status == "pending" and notes`.
With status `"pending"` and notes `"none"` — which the claim says must yield
`finish` with no overwrite — the router returns `revise` and exactly one full
manuscript write (to the `_FINAL.txt` file) is performed. -/
theorem final_revision_counterexample :
    decide_on_final_revision ⟨none, none, none, none, none, some (some "pending"), some "none", 1⟩
        = Except.ok "revise"
    ∧ finalStageWrites ⟨none, none, none, none, none, some (some "pending"), some "none", 1⟩
        "T" "revised full manuscript"
        = Except.ok [("T_FINAL.txt", "revised full manuscript")] :=
  ⟨rfl, rfl⟩

/-- Claim C5 (amended): with the status key present as a string, the router
returns `revise` exactly when the lower-cased status equals `"pending"` and
the notes are non-empty, and `finish` otherwise — the notes' content (such as
`"none"`, `"no"`, `"skip"`) is only tested for truthiness.  On `revise`
exactly one full-manuscript write is performed, and it targets the separate
`<title>_FINAL.txt` file, never the manuscript file `<title>.txt`; on
`finish` no write occurs. -/
theorem final_revision_routing_and_writes (s : WState) (st : String)
    (h : s.finalStatus = some (some st)) :
    decide_on_final_revision s
        = Except.ok (if pyLower st = "pending" ∧ truthy s.finalNotes = true then "revise" else "finish")
    ∧ (∀ t c : String, finalStageWrites s t c
        = Except.ok (if pyLower st = "pending" ∧ truthy s.finalNotes = true
            then [(t ++ "_FINAL.txt", c)] else []))
    ∧ ∀ t : String, t ++ "_FINAL.txt" ≠ t ++ ".txt" := by
  have hd : decide_on_final_revision s
      = Except.ok (if pyLower st = "pending" ∧ truthy s.finalNotes = true then "revise" else "finish") := by
    simp [decide_on_final_revision, pyDictGet, h]
  refine ⟨hd, ?_, ?_⟩
  · intro t c
    by_cases hc : pyLower st = "pending" ∧ truthy s.finalNotes = true
    · simp only [finalStageWrites, hd, if_pos hc]
      rfl
    · simp only [finalStageWrites, hd, if_neg hc]
      rfl
  · intro t hct
    have hdata := congrArg String.data hct
    simp only [String.data_append] at hdata
    have h2 := List.append_cancel_left hdata
    exact absurd h2 (by decide)

/-- Claim C5 witness: a pending status with non-empty notes routes to
`revise` with exactly one `_FINAL.txt` write. -/
theorem final_revision_routing_witness :
    decide_on_final_revision ⟨none, none, none, none, none, some (some "pending"), some "polish", 1⟩
        = Except.ok (if pyLower "pending" = "pending" ∧ truthy (some "polish") = true then "revise" else "finish") :=
  (final_revision_routing_and_writes
    ⟨none, none, none, none, none, some (some "pending"), some "polish", 1⟩ "pending" rfl).1

/-! ## Claim C6 -/

/-- Claim C6 counterexample: `ask_for_next_chapter` increments
`current_chapter_number` unconditionally.  Answering `"no"` — a `stop`
decision — still moves the counter from 1 to 2, so the counter is not left
unchanged by a stop decision and the increment is not tied to a `continue`
decision. -/
theorem chapter_number_stop_increment_counterexample :
    (ask_for_next_chapter_delta ⟨none, none, none, none, none, none, "no"⟩
        ⟨some "T", some "N", none, none, none, none, none, 1⟩).current = 2
    ∧ should_generate_next_chapter
        (ask_for_next_chapter_delta ⟨none, none, none, none, none, none, "no"⟩
          ⟨some "T", some "N", none, none, none, none, none, 1⟩) = "stop" :=
  ⟨rfl, rfl⟩

/-- Claim C6 (amended): `current_chapter_number` is set to 1 by the first node
(`read_local_excel`), is incremented by exactly 1 on every execution of
`ask_for_next_chapter` — regardless of whether the decision is `continue` or
`stop` — is left unchanged by every other node, and never decreases along any
reachable engine transition (the only node that could reset it, the entry
node, is never re-entered). -/
theorem chapter_number_dynamics :
    (∀ (i : NodeInput) (s : WState), (applyNode "read_local_excel" i s).current = 1)
    ∧ (∀ (i : NodeInput) (s : WState),
        (applyNode "ask_for_next_chapter" i s).current = s.current + 1)
    ∧ (∀ (node : String) (i : NodeInput) (s : WState),
        node ≠ "read_local_excel" → node ≠ "ask_for_next_chapter" →
        (applyNode node i s).current = s.current)
    ∧ ∀ (c : Cfg), Reachable c → ∀ (i : NodeInput) (c' : Cfg),
        stepCfg c i = Except.ok (some c') → c.st.current ≤ c'.st.current := by
  refine ⟨fun i s => rfl, fun i s => rfl, ?_, ?_⟩
  · intro node i s h1 h2
    exact applyNode_current_other node i s h1 h2
  · intro c hr i c' hstep
    obtain ⟨hnn, hst⟩ := stepCfg_ok_elim hstep
    rw [hst]
    by_cases h1 : c.node = "read_local_excel"
    · have hc : c = initCfg := reachable_entry hr h1
      rw [hc]
      exact Nat.zero_le _
    · by_cases h2 : c.node = "ask_for_next_chapter"
      · rw [h2]
        exact Nat.le_succ _
      · rw [applyNode_current_other c.node i c.st h1 h2]

/-- Claim C6 witness: a non-counter node keeps the counter, and the first
engine transition from the entry configuration does not decrease it. -/
theorem chapter_number_dynamics_witness :
    (applyNode "generate_outline" ⟨none, none, none, none, none, none, ""⟩ initState).current
        = initState.current
    ∧ initCfg.st.current ≤
        (Cfg.mk "generate_outline" ⟨some "T", some "N", none, none, none, none, none, 1⟩).st.current := by
  constructor
  · exact chapter_number_dynamics.2.2.1 "generate_outline" _ _ (by decide) (by decide)
  · exact chapter_number_dynamics.2.2.2 initCfg Reachable.init
      ⟨some "T", some "N", none, none, none, none, ""⟩
      (Cfg.mk "generate_outline" ⟨some "T", some "N", none, none, none, none, none, 1⟩) rfl

/-! ## Claim C7 helper lemmas -/

theorem summaryKeys_upsert_mem (l : List (Nat × String)) (n : Nat) (s : String)
    (h : n ∈ summaryKeys l) :
    summaryKeys (upsertChapterSummary l n s) = summaryKeys l
      ∧ (upsertChapterSummary l n s).length = l.length := by
  induction l with
  | nil => simp [summaryKeys] at h
  | cons e t ih =>
      by_cases he : e.1 = n
      · constructor
        · simp [upsertChapterSummary, he, summaryKeys]
        · simp [upsertChapterSummary, he]
      · have h' : n ∈ summaryKeys t := by
          simp [summaryKeys] at h ⊢
          rcases h with h | h
          · exact absurd h.symm he
          · exact h
        have := ih h'
        constructor
        · simp [upsertChapterSummary, he, summaryKeys] at this ⊢
          exact this.1
        · simp [upsertChapterSummary, he]
          exact this.2

theorem upsert_not_mem (l : List (Nat × String)) (n : Nat) (s : String)
    (h : n ∉ summaryKeys l) : upsertChapterSummary l n s = l ++ [(n, s)] := by
  induction l with
  | nil => rfl
  | cons e t ih =>
      have he : e.1 ≠ n := by
        intro hc
        exact h (by simp [summaryKeys, hc])
      have h' : n ∉ summaryKeys t := by
        intro hc
        exact h (by simp [summaryKeys] at hc ⊢; exact Or.inr hc)
      simp [upsertChapterSummary, he, ih h']

theorem upsert_nodup (l : List (Nat × String)) (n : Nat) (s : String)
    (h : (summaryKeys l).Nodup) : (summaryKeys (upsertChapterSummary l n s)).Nodup := by
  by_cases hm : n ∈ summaryKeys l
  · rw [(summaryKeys_upsert_mem l n s hm).1]
    exact h
  · rw [upsert_not_mem l n s hm]
    simp only [summaryKeys, List.map_append, List.map_cons, List.map_nil] at *
    rw [List.nodup_append]
    refine ⟨h, List.nodup_singleton n, ?_⟩
    intro a ha hb
    have hab : a = n := by simpa using hb
    subst hab
    exact hm ha

theorem upsert_mem_self (l : List (Nat × String)) (n : Nat) (s : String) :
    (n, s) ∈ upsertChapterSummary l n s := by
  induction l with
  | nil => simp [upsertChapterSummary]
  | cons e t ih =>
      by_cases he : e.1 = n
      · simp [upsertChapterSummary, he]
      · simp [upsertChapterSummary, he]
        exact Or.inr ih

theorem foldl_upsert_nodup (ops : List (Nat × String)) :
    ∀ acc : List (Nat × String), (summaryKeys acc).Nodup →
      (summaryKeys (ops.foldl (fun a p => upsertChapterSummary a p.1 p.2) acc)).Nodup := by
  induction ops with
  | nil => intro acc h; exact h
  | cons p t ih => intro acc h; exact ih _ (upsert_nodup acc p.1 p.2 h)

/-! ## Claim C7 -/

/-- Claim C7: the chapter-summary upsert of
`generate_chapter_summary_and_update_db` keeps at most one entry per chapter
number in every reachable summary list (the list starts empty and is only
modified by the upsert); upserting an existing chapter number replaces the
entry in place (same length, same key sequence), upserting a new chapter
number appends the entry; the upserted pair is always present afterwards. -/
theorem chapter_summaries_upsert_invariant :
    (∀ ops : List (Nat × String), (summaryKeys (applyUpserts ops)).Nodup)
    ∧ (∀ (l : List (Nat × String)) (n : Nat) (s : String), n ∈ summaryKeys l →
        (upsertChapterSummary l n s).length = l.length
          ∧ summaryKeys (upsertChapterSummary l n s) = summaryKeys l)
    ∧ (∀ (l : List (Nat × String)) (n : Nat) (s : String), n ∉ summaryKeys l →
        upsertChapterSummary l n s = l ++ [(n, s)])
    ∧ (∀ (l : List (Nat × String)) (n : Nat) (s : String), (summaryKeys l).Nodup →
        (summaryKeys (upsertChapterSummary l n s)).Nodup)
    ∧ ∀ (l : List (Nat × String)) (n : Nat) (s : String), (n, s) ∈ upsertChapterSummary l n s := by
  refine ⟨?_, ?_, ?_, ?_, ?_⟩
  · intro ops
    exact foldl_upsert_nodup ops [] (by simp [summaryKeys])
  · intro l n s h
    exact ⟨(summaryKeys_upsert_mem l n s h).2, (summaryKeys_upsert_mem l n s h).1⟩
  · exact upsert_not_mem
  · exact upsert_nodup
  · exact upsert_mem_self

/-- Claim C7 witness: replacing chapter 1's summary in a two-entry list keeps
length 2 and duplicate-freedom; upserting chapter 3 appends. -/
theorem chapter_summaries_upsert_witness :
    (upsertChapterSummary [(1, "a"), (2, "b")] 1 "ax").length = 2
    ∧ upsertChapterSummary [(1, "a"), (2, "b")] 3 "c" = [(1, "a"), (2, "b"), (3, "c")]
    ∧ (summaryKeys (upsertChapterSummary [(1, "a"), (2, "b")] 1 "ax")).Nodup := by
  refine ⟨(chapter_summaries_upsert_invariant.2.1 [(1, "a"), (2, "b")] 1 "ax" (by decide)).1,
    chapter_summaries_upsert_invariant.2.2.1 [(1, "a"), (2, "b")] 3 "c" (by decide),
    chapter_summaries_upsert_invariant.2.2.2.1 [(1, "a"), (2, "b")] 1 "ax" (by decide)⟩

/-! ## Claim C8 -/

/-- Claim C8: three of the four classifiers are total, but
`decide_on_final_revision` is not: when `final_review_notes_status` is
present with value `None` — exactly what `read_final_review_notes` stores
when the Excel sheet has no status cell, e.g. when the user just presses
Enter at the final-review prompt — `state.get("final_review_notes_status",
"")` returns `None` and `.lower()` raises `AttributeError`, so the routing
after `read_final_review_notes` dies instead of returning a label. -/
theorem final_revision_classifier_raises :
    decide_on_final_revision ⟨none, none, none, none, none, some none, some "fix pacing", 1⟩
        = Except.error "AttributeError: NoneType has no attribute lower"
    ∧ nextNode "read_final_review_notes"
        ⟨none, none, none, none, none, some none, some "fix pacing", 1⟩
        = Except.error "AttributeError: NoneType has no attribute lower"
    ∧ (∀ s : WState, decide_to_generate_outline s = "continue" ∨ decide_to_generate_outline s = "stop")
    ∧ (∀ s : WState, decide_to_regenerate_chapter s = "continue" ∨ decide_to_regenerate_chapter s = "skip")
    ∧ ∀ s : WState, should_generate_next_chapter s = "continue" ∨ should_generate_next_chapter s = "stop" := by
  refine ⟨rfl, rfl, ?_, ?_, ?_⟩
  · intro s
    unfold decide_to_generate_outline
    split_ifs <;> simp
  · intro s
    unfold decide_to_regenerate_chapter
    split_ifs <;> simp
  · intro s
    unfold should_generate_next_chapter
    split_ifs <;> simp

/-! ## Claim C10 -/

/-- Claim C10: `MongoDB.update_book_chapters` with a falsy book title or an
empty chapter list logs a warning and returns without writing: the store is
unchanged, the result is `skipped`, and no exception escapes even when the
database itself would fail. -/
theorem update_book_chapters_guard (dbOk : Bool)
    (store : List (String × List (Nat × String))) (title : String)
    (data : List (Nat × String)) (h : title = "" ∨ data = []) :
    update_book_chapters dbOk store title data = Except.ok (store, DbResult.skipped) := by
  unfold update_book_chapters
  rw [if_pos h]

/-- Claim C10 witness: an empty title with a non-empty chapter list and a
failing database still returns `skipped` with the store untouched. -/
theorem update_book_chapters_guard_witness :
    update_book_chapters false [] "" [(1, "summary")] = Except.ok ([], DbResult.skipped) :=
  update_book_chapters_guard false [] "" [(1, "summary")] (Or.inl rfl)

/-! ## Claim C9 helper lemmas: prefix tests and occurrence counts -/

theorem leadsWith_append_self (a z : List Char) : leadsWith a (a ++ z) = true := by
  induction a with
  | nil => rfl
  | cons c t ih => simp [leadsWith, ih]

theorem leadsWith_cancel (x u v : List Char) :
    leadsWith (x ++ u) (x ++ v) = leadsWith u v := by
  induction x with
  | nil => rfl
  | cons c t ih => simp [leadsWith, ih]

theorem occCount_cons (pat : List Char) (c : Char) (t : List Char) :
    occCount pat (c :: t) = (if leadsWith pat (c :: t) = true then 1 else 0) + occCount pat t := rfl

theorem occCount_cons_false {pat : List Char} {c : Char} {t : List Char}
    (h : leadsWith pat (c :: t) = false) : occCount pat (c :: t) = occCount pat t := by
  rw [occCount_cons, h]
  simp

theorem occCount_cons_ne {p c : Char} (pt : List Char) (h : c ≠ p) (t : List Char) :
    occCount (p :: pt) (c :: t) = occCount (p :: pt) t := by
  apply occCount_cons_false
  simp [leadsWith, beq_iff_eq]
  intro hc
  exact absurd hc.symm h

theorem occCount_skip {p : Char} {pt : List Char} (a : List Char)
    (ha : ∀ ch ∈ a, ch ≠ p) (t : List Char) :
    occCount (p :: pt) (a ++ t) = occCount (p :: pt) t := by
  induction a with
  | nil => rfl
  | cons c cs ih =>
      rw [List.cons_append, occCount_cons_ne pt (ha c (by simp)) (cs ++ t)]
      exact ih (fun ch hch => ha ch (by simp [hch]))

/-! ## Claim C9 helper lemmas: decimal digits -/

theorem digitVal_digitChar {d : Nat} (h : d < 10) : digitVal (digitChar d) = d := by
  interval_cases d <;> rfl

theorem digitChar_ne {d : Nat} (h : d < 10) :
    digitChar d ≠ '\n' ∧ digitChar d ≠ '-' ∧ digitChar d ≠ 'C' := by
  interval_cases d <;> exact ⟨by decide, by decide, by decide⟩

theorem natDigitsAux_fuel (n : Nat) :
    ∀ f1 f2 : Nat, n < f1 → n < f2 → natDigitsAux f1 n = natDigitsAux f2 n := by
  induction n using Nat.strong_induction_on with
  | _ n ih =>
      intro f1 f2 h1 h2
      cases f1 with
      | zero => omega
      | succ a =>
          cases f2 with
          | zero => omega
          | succ b =>
              show (if n < 10 then _ else _) = (if n < 10 then _ else _)
              by_cases hn : n < 10
              · rw [if_pos hn, if_pos hn]
              · rw [if_neg hn, if_neg hn]
                rw [ih (n / 10) (Nat.div_lt_self (by omega) (by omega)) a b (by omega) (by omega)]

theorem natDigits_eq (n : Nat) :
    natDigits n = if n < 10 then [digitChar n] else natDigits (n / 10) ++ [digitChar (n % 10)] := by
  show natDigitsAux (n + 1) n = _
  by_cases hn : n < 10
  · rw [if_pos hn]
    show (if n < 10 then _ else _) = _
    rw [if_pos hn]
  · rw [if_neg hn]
    show (if n < 10 then _ else _) = _
    rw [if_neg hn]
    show natDigitsAux n (n / 10) ++ _ = natDigitsAux (n / 10 + 1) (n / 10) ++ _
    rw [natDigitsAux_fuel (n / 10) n (n / 10 + 1) (by omega) (by omega)]

theorem natDigits_chars (n : Nat) :
    ∀ ch ∈ natDigits n, ch ≠ '\n' ∧ ch ≠ '-' ∧ ch ≠ 'C' := by
  induction n using Nat.strong_induction_on with
  | _ n ih =>
      rw [natDigits_eq]
      split_ifs with h
      · intro ch hch
        simp only [List.mem_singleton] at hch
        subst hch
        exact digitChar_ne h
      · intro ch hch
        rcases List.mem_append.mp hch with hm | hm
        · exact ih (n / 10) (Nat.div_lt_self (by omega) (by omega)) ch hm
        · simp only [List.mem_singleton] at hm
          subst hm
          exact digitChar_ne (Nat.mod_lt n (by omega))

theorem digitsToNat_append (a b : List Char) :
    ∀ acc, digitsToNat acc (a ++ b) = digitsToNat (digitsToNat acc a) b := by
  induction a with
  | nil => intro acc; rfl
  | cons c t ih =>
      intro acc
      rw [List.cons_append]
      show digitsToNat (10 * acc + digitVal c) (t ++ b)
          = digitsToNat (digitsToNat (10 * acc + digitVal c) t) b
      exact ih _

theorem digitsToNat_natDigits (n : Nat) :
    ∀ acc, digitsToNat acc (natDigits n) = acc * 10 ^ (natDigits n).length + n := by
  induction n using Nat.strong_induction_on with
  | _ n ih =>
      intro acc
      rw [natDigits_eq]
      split_ifs with h
      · show digitsToNat (10 * acc + digitVal (digitChar n)) []
            = acc * 10 ^ [digitChar n].length + n
        show 10 * acc + digitVal (digitChar n) = acc * 10 ^ 1 + n
        rw [digitVal_digitChar h, pow_one]
        ring
      · rw [digitsToNat_append]
        rw [ih (n / 10) (Nat.div_lt_self (by omega) (by omega)) acc]
        simp only [List.length_append, List.length_singleton]
        show digitsToNat (acc * 10 ^ (natDigits (n / 10)).length + n / 10) [digitChar (n % 10)]
            = acc * 10 ^ ((natDigits (n / 10)).length + 1) + n
        show 10 * (acc * 10 ^ (natDigits (n / 10)).length + n / 10) + digitVal (digitChar (n % 10))
            = acc * 10 ^ ((natDigits (n / 10)).length + 1) + n
        rw [digitVal_digitChar (Nat.mod_lt n (by omega))]
        have hdm : 10 * (n / 10) + n % 10 = n := Nat.div_add_mod n 10
        calc 10 * (acc * 10 ^ (natDigits (n / 10)).length + n / 10) + n % 10
            = acc * (10 ^ (natDigits (n / 10)).length * 10) + (10 * (n / 10) + n % 10) := by ring
          _ = acc * 10 ^ ((natDigits (n / 10)).length + 1) + n := by rw [hdm, pow_succ]

theorem natDigits_inj {a b : Nat} (h : natDigits a = natDigits b) : a = b := by
  have ha := digitsToNat_natDigits a 0
  have hb := digitsToNat_natDigits b 0
  rw [h] at ha
  simp only [Nat.zero_mul, Nat.zero_add] at ha hb
  omega

/-! ## Claim C9 helper lemmas: marker occurrences -/

theorem chapterMarker_eq (n : Nat) :
    chapterMarker n = '-' :: '-' :: '-' :: '\n' :: '\n' :: 'C' :: 'h' :: 'a' :: 'p' :: 't' ::
      'e' :: 'r' :: ' ' :: (natDigits n ++ ('\n' :: '\n' :: '-' :: '-' :: '-' :: [])) := rfl

theorem occCount_marker_newline (n : Nat) (x : List Char) :
    occCount (chapterMarker n) ('\n' :: x) = occCount (chapterMarker n) x :=
  occCount_cons_false rfl

theorem occCount_marker_not_dash (n : Nat) {c : Char} (h : c ≠ '-') (x : List Char) :
    occCount (chapterMarker n) (c :: x) = occCount (chapterMarker n) x := by
  rw [chapterMarker_eq]
  exact occCount_cons_ne _ h x

theorem occ_dash_run (n : Nat) (s : List Char) :
    occCount (chapterMarker n) ('-' :: '-' :: '-' :: '\n' :: '\n' :: s)
      = (if leadsWith (chapterMarker n) ('-' :: '-' :: '-' :: '\n' :: '\n' :: s) = true then 1 else 0)
        + occCount (chapterMarker n) s := by
  rw [occCount_cons]
  congr 1
  have h1 : leadsWith (chapterMarker n) ('-' :: '-' :: '\n' :: '\n' :: s) = false := rfl
  have h2 : leadsWith (chapterMarker n) ('-' :: '\n' :: '\n' :: s) = false := rfl
  have h3 : leadsWith (chapterMarker n) ('\n' :: '\n' :: s) = false := rfl
  have h4 : leadsWith (chapterMarker n) ('\n' :: s) = false := rfl
  rw [occCount_cons_false h1, occCount_cons_false h2, occCount_cons_false h3,
    occCount_cons_false h4]

theorem digits_prefix_eq {a : List Char} (ha : ∀ ch ∈ a, ch ≠ '\n') :
    ∀ {b : List Char}, (∀ ch ∈ b, ch ≠ '\n') →
      ∀ {u v : List Char}, leadsWith (a ++ '\n' :: u) (b ++ '\n' :: v) = true → a = b := by
  induction a with
  | nil =>
      intro b hb u v h
      cases b with
      | nil => rfl
      | cons d bs =>
          exfalso
          rw [List.nil_append, List.cons_append] at h
          simp only [leadsWith, Bool.and_eq_true, beq_iff_eq] at h
          exact (hb d (by simp)) h.1.symm
  | cons c as ih =>
      intro b hb u v h
      cases b with
      | nil =>
          exfalso
          rw [List.nil_append, List.cons_append] at h
          simp only [leadsWith, Bool.and_eq_true, beq_iff_eq] at h
          exact (ha c (by simp)) h.1
      | cons d bs =>
          rw [List.cons_append, List.cons_append] at h
          simp only [leadsWith, Bool.and_eq_true, beq_iff_eq] at h
          obtain ⟨hcd, hrest⟩ := h
          subst hcd
          rw [ih (fun ch hch => ha ch (by simp [hch])) (fun ch hch => hb ch (by simp [hch])) hrest]

theorem occ_header_block (n j : Nat) (c R : List Char) (hc : cleanContent c)
    (hR : R = [] ∨ ∃ t, R = '\n' :: t) :
    occCount (chapterMarker n) (chapterHeader j ++ (c ++ R))
      = (if n = j then 1 else 0) + occCount (chapterMarker n) R := by
  have hexp : chapterHeader j ++ (c ++ R)
      = '\n' :: '\n' :: (chapterMarker j ++ ('\n' :: '\n' :: (c ++ R))) := by
    simp [chapterHeader, List.append_assoc]
  rw [hexp, occCount_marker_newline, occCount_marker_newline]
  have hT : chapterMarker j ++ ('\n' :: '\n' :: (c ++ R))
      = '-' :: '-' :: '-' :: '\n' :: '\n' :: ('C' :: 'h' :: 'a' :: 'p' :: 't' :: 'e' :: 'r' :: ' ' ::
          (natDigits j ++ ('\n' :: '\n' :: ('-' :: '-' :: '-' :: ('\n' :: '\n' :: (c ++ R)))))) := by
    rw [chapterMarker_eq]
    simp [List.append_assoc]
  rw [hT, occ_dash_run]
  have hCR : leadsWith ('C' :: 'h' :: 'a' :: 'p' :: 't' :: 'e' :: 'r' :: ' ' ::
      (natDigits n ++ ('\n' :: '\n' :: dashRun))) (c ++ R) = false := by
    cases c with
    | nil =>
        rcases hR with rfl | ⟨t, rfl⟩
        · rfl
        · rfl
    | cons h0 t0 =>
        have h0C : h0 ≠ 'C' := (hc h0 (by simp)).2
        show ('C' == h0 && _) = false
        have hbeq : ('C' == h0) = false := by
          simp only [beq_eq_false_iff_ne, ne_eq]
          exact fun hcc => h0C hcc.symm
        rw [hbeq, Bool.false_and]
  have htail : occCount (chapterMarker n) ('C' :: 'h' :: 'a' :: 'p' :: 't' :: 'e' :: 'r' :: ' ' ::
      (natDigits j ++ ('\n' :: '\n' :: ('-' :: '-' :: '-' :: ('\n' :: '\n' :: (c ++ R))))))
      = occCount (chapterMarker n) R := by
    rw [occCount_marker_not_dash n (by decide), occCount_marker_not_dash n (by decide),
      occCount_marker_not_dash n (by decide), occCount_marker_not_dash n (by decide),
      occCount_marker_not_dash n (by decide), occCount_marker_not_dash n (by decide),
      occCount_marker_not_dash n (by decide), occCount_marker_not_dash n (by decide)]
    have hdig : occCount (chapterMarker n)
        (natDigits j ++ ('\n' :: '\n' :: ('-' :: '-' :: '-' :: ('\n' :: '\n' :: (c ++ R)))))
        = occCount (chapterMarker n) ('\n' :: '\n' :: ('-' :: '-' :: '-' :: ('\n' :: '\n' :: (c ++ R)))) := by
      rw [chapterMarker_eq]
      exact occCount_skip (natDigits j) (fun ch hch => (natDigits_chars j ch hch).2.1) _
    rw [hdig, occCount_marker_newline, occCount_marker_newline, occ_dash_run]
    have hfls : leadsWith (chapterMarker n) ('-' :: '-' :: '-' :: '\n' :: '\n' :: (c ++ R)) = false := by
      have hpat : chapterMarker n = (['-', '-', '-', '\n', '\n'] : List Char)
          ++ ('C' :: 'h' :: 'a' :: 'p' :: 't' :: 'e' :: 'r' :: ' ' ::
              (natDigits n ++ ('\n' :: '\n' :: dashRun))) := rfl
      have htxt : '-' :: '-' :: '-' :: '\n' :: '\n' :: (c ++ R)
          = (['-', '-', '-', '\n', '\n'] : List Char) ++ (c ++ R) := rfl
      rw [hpat, htxt, leadsWith_cancel]
      exact hCR
    rw [hfls]
    have hcc : occCount (chapterMarker n) (c ++ R) = occCount (chapterMarker n) R := by
      rw [chapterMarker_eq]
      exact occCount_skip c (fun ch hch => (hc ch hch).1) R
    simp only [Bool.false_eq_true, if_false, Nat.zero_add]
    exact hcc
  rw [htail]
  congr 1
  have hiff : leadsWith (chapterMarker n)
      ('-' :: '-' :: '-' :: '\n' :: '\n' :: ('C' :: 'h' :: 'a' :: 'p' :: 't' :: 'e' :: 'r' :: ' ' ::
        (natDigits j ++ ('\n' :: '\n' :: ('-' :: '-' :: '-' :: ('\n' :: '\n' :: (c ++ R))))))) = true
      ↔ n = j := by
    have hpat : chapterMarker n = (['-', '-', '-', '\n', '\n', 'C', 'h', 'a', 'p', 't', 'e', 'r', ' '] : List Char)
        ++ (natDigits n ++ ('\n' :: ('\n' :: '-' :: '-' :: '-' :: []))) := rfl
    have htxt : '-' :: '-' :: '-' :: '\n' :: '\n' :: ('C' :: 'h' :: 'a' :: 'p' :: 't' :: 'e' :: 'r' :: ' ' ::
        (natDigits j ++ ('\n' :: '\n' :: ('-' :: '-' :: '-' :: ('\n' :: '\n' :: (c ++ R))))))
        = (['-', '-', '-', '\n', '\n', 'C', 'h', 'a', 'p', 't', 'e', 'r', ' '] : List Char)
          ++ (natDigits j ++ ('\n' :: ('\n' :: '-' :: '-' :: '-' :: ('\n' :: '\n' :: (c ++ R))))) := rfl
    rw [hpat, htxt, leadsWith_cancel]
    constructor
    · intro h
      exact natDigits_inj (digits_prefix_eq (fun ch hch => (natDigits_chars n ch hch).1)
        (fun ch hch => (natDigits_chars j ch hch).1) h)
    · intro h
      subst h
      have hre : natDigits n ++ ('\n' :: ('\n' :: '-' :: '-' :: '-' :: ('\n' :: '\n' :: (c ++ R))))
          = (natDigits n ++ ('\n' :: ('\n' :: '-' :: '-' :: '-' :: []))) ++ ('\n' :: '\n' :: (c ++ R)) := by
        simp [List.append_assoc]
      rw [hre]
      exact leadsWith_append_self _ _
  by_cases hnj : n = j
  · rw [if_pos (hiff.mpr hnj), if_pos hnj]
  · rw [if_neg (fun hcond => hnj (hiff.mp hcond)), if_neg hnj]

theorem renderBook_shape (j : Nat) (cs : List (List Char)) :
    renderBook j cs = [] ∨ ∃ t, renderBook j cs = '\n' :: t := by
  cases cs with
  | nil => exact Or.inl rfl
  | cons c rest => exact Or.inr ⟨_, rfl⟩

theorem occ_renderBook (n : Nat) (cs : List (List Char)) (hclean : ∀ c ∈ cs, cleanContent c) :
    ∀ j, occCount (chapterMarker n) (renderBook j cs)
      = if j ≤ n ∧ n < j + cs.length then 1 else 0 := by
  induction cs with
  | nil =>
      intro j
      rw [if_neg (by simp)]
      rfl
  | cons c rest ih =>
      intro j
      have hini : renderBook j (c :: rest) = chapterHeader j ++ (c ++ renderBook (j + 1) rest) := rfl
      rw [hini,
        occ_header_block n j c _ (hclean c (by simp)) (renderBook_shape (j + 1) rest),
        ih (fun x hx => hclean x (by simp [hx])) (j + 1)]
      simp only [List.length_cons]
      split_ifs <;> omega

/-! ## Claim C9 helper lemmas: Python strip -/

theorem dropWhile_append_of_ne {p : Char → Bool} {a : List Char} (h : a.dropWhile p ≠ [])
    (b : List Char) : (a ++ b).dropWhile p = a.dropWhile p ++ b := by
  induction a with
  | nil => exact absurd rfl h
  | cons c t ih =>
      cases hc : p c with
      | true =>
          have hrw : List.dropWhile p (c :: t) = List.dropWhile p t := by
            rw [List.dropWhile_cons, hc]
            simp
          have hrw2 : List.dropWhile p (c :: (t ++ b)) = List.dropWhile p (t ++ b) := by
            rw [List.dropWhile_cons, hc]
            simp
          rw [hrw] at h
          rw [List.cons_append, hrw2, hrw]
          exact ih h
      | false =>
          have hrw : List.dropWhile p (c :: t) = c :: t := by
            rw [List.dropWhile_cons, hc]
            simp
          have hrw2 : List.dropWhile p (c :: (t ++ b)) = c :: (t ++ b) := by
            rw [List.dropWhile_cons, hc]
            simp
          rw [List.cons_append, hrw2, hrw, List.cons_append]

theorem pyLStrip_append_of_ne {a : List Char} (h : pyLStrip a ≠ []) (b : List Char) :
    pyLStrip (a ++ b) = pyLStrip a ++ b :=
  dropWhile_append_of_ne h b

theorem pyRStrip_append_of_ne {b : List Char} (h : pyRStrip b ≠ []) (a : List Char) :
    pyRStrip (a ++ b) = a ++ pyRStrip b := by
  have hb : b.reverse.dropWhile pySpace ≠ [] := by
    intro hc
    apply h
    show (b.reverse.dropWhile pySpace).reverse = []
    rw [hc]
    rfl
  show ((a ++ b).reverse.dropWhile pySpace).reverse = a ++ (b.reverse.dropWhile pySpace).reverse
  rw [List.reverse_append, dropWhile_append_of_ne hb, List.reverse_append, List.reverse_reverse]

theorem mem_dropWhile_imp {p : Char → Bool} {ch : Char} :
    ∀ {l : List Char}, ch ∈ l.dropWhile p → ch ∈ l := by
  intro l
  induction l with
  | nil => intro h; exact h
  | cons c t ih =>
      intro h
      rw [List.dropWhile_cons] at h
      by_cases hc : p c = true
      · rw [if_pos hc] at h
        exact List.mem_cons_of_mem c (ih h)
      · rw [if_neg hc] at h
        exact h

theorem mem_pyRStrip {ch : Char} {l : List Char} (h : ch ∈ pyRStrip l) : ch ∈ l := by
  have h1 : ch ∈ l.reverse.dropWhile pySpace := List.mem_reverse.mp h
  have h2 : ch ∈ l.reverse := mem_dropWhile_imp h1
  exact List.mem_reverse.mp h2

theorem pyLStrip_marker_ne (m : Nat) (x : List Char) :
    pyLStrip ('\n' :: '\n' :: (chapterMarker m ++ x)) ≠ [] := by
  have h : pyLStrip ('\n' :: '\n' :: (chapterMarker m ++ x)) = chapterMarker m ++ x := by
    rw [chapterMarker_eq]
    rfl
  rw [h, chapterMarker_eq]
  simp

theorem renderBook_append (xs : List (List Char)) (y : List Char) :
    ∀ j, renderBook j (xs ++ [y]) = renderBook j xs ++ (chapterHeader (j + xs.length) ++ y) := by
  induction xs with
  | nil =>
      intro j
      simp [renderBook]
  | cons c rest ih =>
      intro j
      show chapterHeader j ++ (c ++ renderBook (j + 1) (rest ++ [y])) = _
      rw [ih (j + 1)]
      simp only [List.length_cons, List.append_assoc]
      rw [show j + 1 + rest.length = j + (rest.length + 1) from by omega]
      simp only [renderBook, List.append_assoc]

/-! ## Claim C9 -/

/-- Claim C9 counterexample: the claim quantifies over all generated chapter
contents, but a revised content that itself contains chapter 1's boundary
marker text makes the marker occur twice in the rewritten manuscript, so
"exactly one occurrence of chapter n's boundary markers" fails as stated. -/
theorem regenerate_marker_duplication_counterexample :
    occCount (chapterMarker 1) (regeneratedFile (regenerateChapters [['x']] (chapterMarker 1))) = 2 := by
  decide

/-- Claim C9 (amended): provided no chapter content and no revised content
contains a dash or a capital C (so none can imitate a boundary marker), and
the revised content does not consist of whitespace only, regenerating the
last chapter `n` of `chapters 1..n` behaves as claimed: the in-memory
sequence keeps its length, its last entry becomes the revised text and all
other entries are untouched; the rewritten manuscript is the text of chapters
`1..n-1` followed by chapter `n`'s header and the revised content (so all
neighbouring chapters are unchanged), the revised content appearing
right-stripped because the file as a whole is stripped; and each chapter
marker `1..n` — in particular chapter `n`'s — occurs exactly once, markers of
chapters beyond `n` not at all.  (The rewrite is a wholesale dump of the
in-memory chapters, not the marker-delimited `replaceRange` the spec
describes, but it satisfies these observable properties.) -/
theorem regenerate_chapter_correct (cs : List (List Char)) (r : List Char) (n : Nat)
    (hn : n = cs.length) (hpos : 0 < cs.length)
    (hcs : ∀ c ∈ cs, cleanContent c) (hr : cleanContent r)
    (hrs : pyRStrip r ≠ []) :
    (regenerateChapters cs r).length = cs.length
    ∧ (regenerateChapters cs r).getLast? = some r
    ∧ (∀ i : Nat, i + 1 < cs.length → (regenerateChapters cs r)[i]? = cs[i]?)
    ∧ regeneratedFile (regenerateChapters cs r)
        = pyLStrip (renderBook 1 cs.dropLast ++ chapterHeader n) ++ pyRStrip r
    ∧ (∀ k : Nat, 1 ≤ k → k ≤ n →
        occCount (chapterMarker k) (regeneratedFile (regenerateChapters cs r)) = 1)
    ∧ ∀ k : Nat, n < k →
        occCount (chapterMarker k) (regeneratedFile (regenerateChapters cs r)) = 0 := by
  have hlen : cs.dropLast.length = cs.length - 1 := List.length_dropLast cs
  have hidx : 1 + cs.dropLast.length = n := by omega
  have h1 : (regenerateChapters cs r).length = cs.length := by
    simp only [regenerateChapters, List.length_append, List.length_dropLast,
      List.length_singleton]
    omega
  have h2 : (regenerateChapters cs r).getLast? = some r := List.getLast?_concat _
  have h3 : ∀ i : Nat, i + 1 < cs.length → (regenerateChapters cs r)[i]? = cs[i]? := by
    intro i hi
    show (cs.dropLast ++ [r])[i]? = cs[i]?
    rw [List.getElem?_append_left (by omega)]
    rw [List.dropLast_eq_take]
    rw [List.getElem?_take_of_lt (by omega)]
  have hrend : renderBook 1 (cs.dropLast ++ [r])
      = renderBook 1 cs.dropLast ++ (chapterHeader n ++ r) := by
    rw [renderBook_append cs.dropLast r 1, hidx]
  have hlne : pyLStrip (renderBook 1 cs.dropLast ++ chapterHeader n) ≠ [] := by
    cases cs.dropLast with
    | nil => exact pyLStrip_marker_ne n ['\n', '\n']
    | cons d tail =>
        have hform : renderBook 1 (d :: tail) ++ chapterHeader n
            = '\n' :: '\n' :: (chapterMarker 1
                ++ ('\n' :: '\n' :: (d ++ (renderBook 2 tail ++ chapterHeader n)))) := by
          simp [renderBook, chapterHeader, List.append_assoc]
        rw [hform]
        exact pyLStrip_marker_ne 1 _
  have h4 : regeneratedFile (regenerateChapters cs r)
      = pyLStrip (renderBook 1 cs.dropLast ++ chapterHeader n) ++ pyRStrip r := by
    show pyRStrip (pyLStrip (renderBook 1 (cs.dropLast ++ [r]))) = _
    rw [hrend, ← List.append_assoc, pyLStrip_append_of_ne hlne, pyRStrip_append_of_ne hrs]
  have hds : regeneratedFile (regenerateChapters cs r)
      = pyLStrip (renderBook 1 (cs.dropLast ++ [pyRStrip r])) := by
    rw [h4, renderBook_append cs.dropLast (pyRStrip r) 1, hidx, ← List.append_assoc,
      pyLStrip_append_of_ne hlne]
  have hocc_strip : ∀ k : Nat,
      occCount (chapterMarker k) (pyLStrip (renderBook 1 (cs.dropLast ++ [pyRStrip r])))
        = occCount (chapterMarker k) (renderBook 1 (cs.dropLast ++ [pyRStrip r])) := by
    intro k
    cases hds2 : cs.dropLast ++ [pyRStrip r] with
    | nil => exact absurd hds2 (by simp)
    | cons d tail =>
        have hexp : renderBook 1 (d :: tail)
            = '\n' :: '\n' :: (chapterMarker 1 ++ ('\n' :: '\n' :: (d ++ renderBook 2 tail))) := by
          show chapterHeader 1 ++ (d ++ renderBook 2 tail) = _
          simp [chapterHeader, List.append_assoc]
        have hl : pyLStrip (renderBook 1 (d :: tail))
            = chapterMarker 1 ++ ('\n' :: '\n' :: (d ++ renderBook 2 tail)) := by
          rw [hexp, chapterMarker_eq]
          rfl
        rw [hl, hexp]
        rw [show chapterMarker 1 ++ ('\n' :: '\n' :: (d ++ renderBook 2 tail))
            = (chapterMarker 1 ++ ('\n' :: '\n' :: (d ++ renderBook 2 tail)) : List Char) from rfl]
        rw [occCount_marker_newline, occCount_marker_newline]
  have hclean_ds : ∀ c ∈ cs.dropLast ++ [pyRStrip r], cleanContent c := by
    intro c hcm
    rcases List.mem_append.mp hcm with hm | hm
    · have hmem : c ∈ cs := by
        rw [List.dropLast_eq_take] at hm
        exact List.take_subset _ _ hm
      exact hcs c hmem
    · simp only [List.mem_singleton] at hm
      subst hm
      intro ch hch
      exact hr ch (mem_pyRStrip hch)
  have hlds : (cs.dropLast ++ [pyRStrip r]).length = n := by
    simp only [List.length_append, List.length_dropLast, List.length_singleton]
    omega
  have h5 : ∀ k : Nat, 1 ≤ k → k ≤ n →
      occCount (chapterMarker k) (regeneratedFile (regenerateChapters cs r)) = 1 := by
    intro k hk1 hk2
    rw [hds, hocc_strip k, occ_renderBook k _ hclean_ds 1, hlds, if_pos ⟨hk1, by omega⟩]
  have h6 : ∀ k : Nat, n < k →
      occCount (chapterMarker k) (regeneratedFile (regenerateChapters cs r)) = 0 := by
    intro k hk
    rw [hds, hocc_strip k, occ_renderBook k _ hclean_ds 1, hlds, if_neg (by omega)]
  exact ⟨h1, h2, h3, h4, h5, h6⟩

/-- Claim C9 witness: regenerating chapter 2 of a two-chapter book with clean
contents keeps the length, replaces the last chapter, and leaves exactly one
occurrence of chapter 2's boundary marker in the manuscript. -/
theorem regenerate_chapter_correct_witness :
    (regenerateChapters [['a'], ['b']] ['z']).length = 2
    ∧ (regenerateChapters [['a'], ['b']] ['z']).getLast? = some ['z']
    ∧ occCount (chapterMarker 2) (regeneratedFile (regenerateChapters [['a'], ['b']] ['z'])) = 1 := by
  have h := regenerate_chapter_correct [['a'], ['b']] ['z'] 2 rfl (by decide)
    (by decide) (by decide) (by decide)
  exact ⟨h.1, h.2.1, h.2.2.2.2.1 2 (by decide) (by decide)⟩
